import Mathlib

/-!
Shallow embedding of the Balsa benchmarking tool (SRON-Earth/Balsa).

The embedding covers the dataset codec, sampler and cache driver loop of
src/rfcperf/data.py and the process/telemetry/scoring helpers of
src/Tools/classifiert/util.py.  Files are modelled as lists of byte values
(Nat, < 256 for well-formed data); numpy float32 scalars are represented by
their 32-bit patterns (Nat, < 2^32), so bit-identical round trips are
literal equalities; Python floats that carry parsed decimal text are
modelled as exact rationals.
-/

namespace Balsa

/-- Little-endian 4-byte encoding of a 32-bit value, as produced by
Python struct.pack of an unsigned int (the source raises for values
that do not fit in 32 bits; theorems carry that bound as a hypothesis). -/
def u32le (n : Nat) : List Nat :=
  [n % 256, n / 256 % 256, n / 65536 % 256, n / 16777216 % 256]

/-- Value of 4 little-endian bytes, as read by struct.unpack of an
unsigned int. -/
def unpackU32 (bs : List Nat) : Nat :=
  match bs with
  | [b0, b1, b2, b3] => b0 + 256 * b1 + 65536 * b2 + 16777216 * b3
  | _ => 0

/-- Reading an exact number of bytes from the front of a file.  Python
file.read returns fewer bytes at end of file, after which every consumer
in the decoders (struct.unpack, a marker comparison, the row-count
assertion) fails, so a short read is modelled as an immediate failure. -/
def readN (n : Nat) (s : List Nat) : Option (List Nat × List Nat) :=
  if n ≤ s.length then some (s.take n, s.drop n) else none

/-- Parsing a byte string as consecutive little-endian 32-bit scalars
(numpy frombuffer with a 4-byte dtype); fails unless the length is an
exact multiple of four. -/
def wordsOfBytes : List Nat → Option (List Nat)
  | [] => some []
  | b0 :: b1 :: b2 :: b3 :: rest =>
    (wordsOfBytes rest).map (fun ws => (b0 + 256 * b1 + 65536 * b2 + 16777216 * b3) :: ws)
  | _ => none

/-- Row-count inference of a numpy reshape to (-1, c): the element count
must be an exact multiple of c, and numpy cannot infer the unknown
dimension alongside a zero dimension. -/
def inferRows (size c : Nat) : Option Nat :=
  if c = 0 then none
  else if size % c = 0 then some (size / c) else none

/-- A numpy float32 array as handled by the codec: either a 1-D vector or
a 2-D row-major matrix of shape (r, c).  Scalars are 32-bit patterns. -/
inductive PyArray where
  | arr1 (data : List Nat)
  | arr2 (r c : Nat) (data : List Nat)
deriving DecidableEq

/-- Shape normalisation performed by the decoders: both load functions
always produce a 2-D array, so a 1-D vector of n values comes back as the
(n, 1) column matrix. -/
def as2D : PyArray → PyArray
  | .arr1 v => .arr2 v.length 1 v
  | .arr2 r c d => .arr2 r c d

/-- Well-formedness of an array fed to the encoders: the flat data agrees
with the declared shape, the column count is positive (numpy cannot
re-infer rows for a zero-width matrix) and fits the 4-byte header, the
row count fits the 4-byte balsa header field, and every scalar is a
32-bit pattern. -/
def WF : PyArray → Prop
  | .arr1 v => v.length < 4294967296 ∧ ∀ w ∈ v, w < 4294967296
  | .arr2 r c d => d.length = r * c ∧ 1 ≤ c ∧ c < 4294967296 ∧ r < 4294967296 ∧
      ∀ w ∈ d, w < 4294967296

/-- Function store_dataset_bin of src/rfcperf/data.py: a 4-byte
little-endian column-count header followed by the scalars row-major, four
bytes each.  A 1-D array is written with column count 1; the per-row
tobytes calls concatenate to the flat little-endian scalar stream. -/
def store_dataset_bin (d : PyArray) : List Nat :=
  match d with
  | .arr1 v => u32le 1 ++ v.flatMap u32le
  | .arr2 _ c dt => u32le c ++ dt.flatMap u32le

/-- Function load_dataset_bin of src/rfcperf/data.py: read the 4-byte
column count, parse every remaining byte as little-endian float32 and
reshape to (-1, num_columns). -/
def load_dataset_bin (file : List Nat) : Option PyArray :=
  match readN 4 file with
  | none => none
  | some (hdr, rest) =>
    let c := unpackU32 hdr
    match wordsOfBytes rest with
    | none => none
    | some ws =>
      match inferRows ws.length c with
      | none => none
      | some rows => some (.arr2 rows c ws)

/-- ASCII byte values of a marker or key string, as written and compared
by the balsa codec. -/
def ascii (s : String) : List Nat :=
  s.data.map Char.toNat

/-- Function write_string of src/rfcperf/data.py: a 1-byte length prefix
followed by the ASCII bytes (the source asserts the length fits a byte;
every string the encoder writes does). -/
def write_string (s : List Nat) : List Nat :=
  s.length :: s

/-- Typed value passed to write_kv_pair by the balsa encoder. -/
inductive WVal where
  | u8 (n : Nat)
  | u32 (n : Nat)
  | str (s : List Nat)
deriving DecidableEq

/-- Function write_kv_pair of src/rfcperf/data.py: length-prefixed key,
4-byte ASCII type tag, then the value in the tagged encoding.  The u8
payload is the raw byte (the source packs it with struct, which raises
for values over 255; the encoder only writes 0 and 1). -/
def write_kv_pair (key : List Nat) : WVal → List Nat
  | .u8 n => write_string key ++ ascii "ui08" ++ [n]
  | .u32 n => write_string key ++ ascii "ui32" ++ u32le n
  | .str s => write_string key ++ ascii "strn" ++ write_string s

/-- Dictionary value produced by read_kv_pair.  Integer tags ui08 and
ui32 both decode to a Python int, collapsed here into one constructor so
that the version-number equality checks of the decoder compare values the
way Python does.  Float-tagged values are kept as raw bit patterns: no
encoder path produces them and no decoder check inspects them. -/
inductive BVal where
  | num (n : Nat)
  | f32bits (w : Nat)
  | f64bits (w : Nat)
  | str (s : List Nat)
deriving DecidableEq

/-- Function read_string of src/rfcperf/data.py: a 1-byte length followed
by that many ASCII bytes. -/
def read_string (s : List Nat) : Option (List Nat × List Nat) :=
  match s with
  | [] => none
  | n :: rest => readN n rest

/-- Function read_kv_pair of src/rfcperf/data.py: key, 4-byte type tag,
typed value; an unknown tag is an assertion failure. -/
def read_kv_pair (s : List Nat) : Option ((List Nat × BVal) × List Nat) := do
  let (key, s1) ← read_string s
  let (tag, s2) ← readN 4 s1
  if tag = ascii "strn" then do
    let (v, s3) ← read_string s2
    pure ((key, .str v), s3)
  else if tag = ascii "ui08" then
    match s2 with
    | b :: s3 => pure ((key, .num b), s3)
    | [] => none
  else if tag = ascii "ui32" then do
    let (bs, s3) ← readN 4 s2
    pure ((key, .num (unpackU32 bs)), s3)
  else if tag = ascii "fl32" then do
    let (bs, s3) ← readN 4 s2
    pure ((key, .f32bits (unpackU32 bs)), s3)
  else if tag = ascii "fl64" then do
    let (bs, s3) ← readN 8 s2
    pure ((key, .f64bits (unpackU32 (bs.take 4) + 4294967296 * unpackU32 (bs.drop 4))), s3)
  else none

/-- Loop body of read_dictionary: read the announced number of key-value
pairs in order. -/
def read_entries : Nat → List Nat → Option (List (List Nat × BVal) × List Nat)
  | 0, s => some ([], s)
  | n + 1, s => do
    let (kv, s1) ← read_kv_pair s
    let (rest, s2) ← read_entries n s1
    pure (kv :: rest, s2)

/-- Function read_dictionary of src/rfcperf/data.py: dict marker, 1-byte
entry count, the entries, tcid end marker. -/
def read_dictionary (s : List Nat) : Option (List (List Nat × BVal) × List Nat) := do
  let (m, s1) ← readN 4 s
  if m = ascii "dict" then
    match s1 with
    | [] => none
    | n :: s2 => do
      let (entries, s3) ← read_entries n s2
      let (e, s4) ← readN 4 s3
      if e = ascii "tcid" then pure (entries, s4) else none
  else none

/-- Lookup in a decoded dictionary.  Python dict insertion lets a later
duplicate key overwrite an earlier one, hence the reversed search. -/
def dictFind (entries : List (List Nat × BVal)) (key : List Nat) : Option BVal :=
  entries.reverse.lookup key

/-- Scalar type tag of a decoded balsa table. -/
inductive ScalarTy where
  | fl32
  | ui08
deriving DecidableEq

/-- Function store_dataset_balsa of src/rfcperf/data.py: magic,
endianness marker, file-header dictionary (version 1.0), table section
with a table-header dictionary (row count, column count, scalar type
fl32) followed by the scalars row-major and the table end marker. -/
def store_dataset_balsa (d : PyArray) : List Nat :=
  let r := match d with | .arr1 v => v.length | .arr2 r _ _ => r
  let c := match d with | .arr1 _ => 1 | .arr2 _ c _ => c
  let dt := match d with | .arr1 v => v | .arr2 _ _ v => v
  ascii "blsa" ++ ascii "lend" ++
  ascii "dict" ++ [2] ++
  write_kv_pair (ascii "file_major_version") (.u8 1) ++
  write_kv_pair (ascii "file_minor_version") (.u8 0) ++
  ascii "tcid" ++
  ascii "tabl" ++
  ascii "dict" ++ [3] ++
  write_kv_pair (ascii "row_count") (.u32 r) ++
  write_kv_pair (ascii "column_count") (.u32 c) ++
  write_kv_pair (ascii "scalar_type_id") (.str (ascii "fl32")) ++
  ascii "tcid" ++
  dt.flatMap u32le ++
  ascii "lbat"

/-- Function load_dataset_balsa of src/rfcperf/data.py: check the magic
and endianness marker, read and validate the file header, read the table
header, read row_count times column_count scalars of the declared width,
reshape to (-1, column_count), check the row count and the table end
marker. -/
def load_dataset_balsa (file : List Nat) : Option (ScalarTy × PyArray) := do
  let (sig, s1) ← readN 4 file
  if sig = ascii "blsa" then do
    let (em, s2) ← readN 4 s1
    if em = ascii "lend" then do
      let (fh, s3) ← read_dictionary s2
      if dictFind fh (ascii "file_major_version") = some (.num 1) then
        if dictFind fh (ascii "file_minor_version") = some (.num 0) then do
          let (tm, s4) ← readN 4 s3
          if tm = ascii "tabl" then do
            let (th, s5) ← read_dictionary s4
            match dictFind th (ascii "row_count"), dictFind th (ascii "column_count"),
                  dictFind th (ascii "scalar_type_id") with
            | some (.num nr), some (.num nc), some (.str sid) =>
              if sid = ascii "fl32" then do
                let (dataBytes, s6) ← readN (nr * nc * 4) s5
                let ws ← wordsOfBytes dataBytes
                let rows ← inferRows ws.length nc
                if rows = nr then do
                  let (endm, _) ← readN 4 s6
                  if endm = ascii "lbat" then pure (.fl32, .arr2 rows nc ws) else none
                else none
              else if sid = ascii "ui08" then do
                let (dataBytes, s6) ← readN (nr * nc * 1) s5
                let rows ← inferRows dataBytes.length nc
                if rows = nr then do
                  let (endm, _) ← readN 4 s6
                  if endm = ascii "lbat" then pure (.ui08, .arr2 rows nc dataBytes) else none
                else none
              else none
            | _, _, _ => none
          else none
        else none
      else none
    else none
  else none

/-- The tuple DATA_FORMATS of src/rfcperf/data.py. -/
inductive Fmt where
  | csv
  | bin
  | balsa
deriving DecidableEq

/-- List of all supported dataset formats, in source order. -/
def DATA_FORMATS : List Fmt := [.csv, .bin, .balsa]

/-- Cache purpose of a stored split. -/
inductive Purpose where
  | train
  | test
deriving DecidableEq

/-- Observable file-system effect of one pass of the generate_datasets
loop.  A store event records store_labelled_dataset being called for one
format with the given rows and labels (for csv the labels land in the
same file; for bin and balsa in the companion label file). -/
inductive Event where
  | removeCache (size : Nat)
  | draw (count : Nat) (replace : Bool)
  | store (p : Purpose) (f : Fmt) (rows : List (List ℚ)) (labels : List ℚ)
deriving DecidableEq

/-- Outcome of generate_datasets for one requested size: the cache-skip
branch, an assertion failure (PreconditionViolation) aborting the run, or
a regeneration with its effect trace. -/
inductive SizeOutcome where
  | skipped
  | failed
  | regenerated (events : List Event)
deriving DecidableEq

/-- Python round of num / den for a positive denominator: round half to
even.  The source computes round(test_percentage * data_size / 100.0);
since the exact value is a multiple of 1/100, the double-precision
quotient rounds to the same integer as the exact rational. -/
def pyRoundDiv (num den : Nat) : Nat :=
  let q := num / den
  let r := num % den
  if 2 * r < den then q
  else if den < 2 * r then q + 1
  else if q % 2 = 0 then q else q + 1

/-- Test-split size computed by generate_datasets: zero without a test
percentage, otherwise round(test_percentage * data_size / 100.0). -/
def testSizeOf (testPercentage : Option Nat) (dataSize : Nat) : Nat :=
  match testPercentage with
  | none => 0
  | some p => pyRoundDiv (p * dataSize) 100

/-- Function sample_dataset of src/rfcperf/data.py.  The numpy random
generator is modelled by the index list it returns: choice(n, size,
replace) yields exactly size indices below n, which theorems assume as
hypotheses.  The function asserts that data and labels have equal length
and that the requested size does not exceed the corpus unless sampling
with replacement; an assertion failure is a PreconditionViolation,
modelled as none. -/
def sample_dataset (dataPoints : List (List ℚ)) (labels : List ℚ) (dataSize : Nat)
    (idx : List Nat) (replace : Bool) : Option (List (List ℚ) × List ℚ) :=
  if dataPoints.length = labels.length then
    if dataSize ≤ dataPoints.length ∨ replace = true then
      some (idx.map (fun i => dataPoints.getD i []), idx.map (fun i => labels.getD i 0))
    else none
  else none

/-- Body of the generate_datasets loop of src/rfcperf/data.py for one
requested size.  The skip branch fires exactly when the cache is
complete, use_cache holds and no explicit seed was given; otherwise the
stale cache files are removed, the corpus is loaded (its labels must all
be 0 or 1 - in the source the load and that assertion happen lazily on
the first regenerated size; here the corpus is a parameter and the
assertion guards each regeneration, with the same per-size outcome), a
single sample of size + test size rows is drawn without replacement, and
the first size rows are stored as the training split in every format,
the remaining rows as the test split when a test percentage was given.
In the source the cache removal precedes the corpus assertions; a failed
outcome therefore aborts after the removal. -/
def generateSize (dataPoints : List (List ℚ)) (labels : List ℚ)
    (cached use_cache : Bool) (seed : Option Nat) (testPercentage : Option Nat)
    (idx : List Nat) (dataSize : Nat) : SizeOutcome :=
  if cached && use_cache && seed.isNone then .skipped
  else if labels.all (fun l => decide (l = 0 ∨ l = 1)) then
    let ts := testSizeOf testPercentage dataSize
    match sample_dataset dataPoints labels (dataSize + ts) idx false with
    | none => .failed
    | some (sd, sl) =>
      .regenerated
        ([.removeCache dataSize, .draw (dataSize + ts) false] ++
         DATA_FORMATS.map (fun f => .store .train f (sd.take dataSize) (sl.take dataSize)) ++
         (match testPercentage with
          | none => []
          | some _ =>
            DATA_FORMATS.map (fun f => .store .test f (sd.drop dataSize) (sl.drop dataSize))))
  else .failed

/-- Function generate_datasets of src/rfcperf/data.py, observed through
its per-size outcomes.  Cache completeness per size and the random draw
per size are oracles (is_cached inspects the file system; the index list
is what the seeded generator returns for that draw). -/
def generate_datasets (dataPoints : List (List ℚ)) (labels : List ℚ)
    (cachedF : Nat → Bool) (use_cache : Bool) (seed : Option Nat)
    (testPercentage : Option Nat) (idxF : Nat → List Nat)
    (dataSizes : List Nat) : List (Nat × SizeOutcome) :=
  dataSizes.map (fun s =>
    (s, generateSize dataPoints labels (cachedF s) use_cache seed testPercentage (idxF s) s))

/-- Number of label pairs equal to a given predicted/true combination,
as counted by the numpy comparisons in get_classification_scores. -/
def countPairs (predicted labels : List ℚ) (pv tv : ℚ) : Nat :=
  ((predicted.zip labels).filter (fun pt => decide (pt.1 = pv) && decide (pt.2 = tv))).length

/-- Function accuracy of src/Tools/classifiert/util.py. -/
def accuracy (tp fp tn fn : Nat) : ℚ :=
  if tp + fp + tn + fn = 0 then 0
  else ((tp : ℚ) + tn) / ((tp : ℚ) + fp + tn + fn)

/-- Function P4_metric of src/Tools/classifiert/util.py. -/
def P4_metric (tp fp tn fn : Nat) : ℚ :=
  if 4 * tp * tn + (tp + tn) * (fp + fn) = 0 then 0
  else (4 * (tp : ℚ) * tn) / (4 * (tp : ℚ) * tn + ((tp : ℚ) + tn) * ((fp : ℚ) + fn))

/-- Function positive_predictive_value of src/Tools/classifiert/util.py. -/
def positive_predictive_value (tp fp tn fn : Nat) : ℚ :=
  if tp + fp = 0 then 0 else (tp : ℚ) / ((tp : ℚ) + fp)

/-- Function true_positive_rate of src/Tools/classifiert/util.py. -/
def true_positive_rate (tp fp tn fn : Nat) : ℚ :=
  if tp + fn = 0 then 0 else (tp : ℚ) / ((tp : ℚ) + fn)

/-- Function true_negative_rate of src/Tools/classifiert/util.py. -/
def true_negative_rate (tp fp tn fn : Nat) : ℚ :=
  if tn + fp = 0 then 0 else (tn : ℚ) / ((tn : ℚ) + fp)

/-- Function negative_predictive_value of src/Tools/classifiert/util.py. -/
def negative_predictive_value (tp fp tn fn : Nat) : ℚ :=
  if tn + fn = 0 then 0 else (tn : ℚ) / ((tn : ℚ) + fn)

/-- Statistics mapping: stat key to scalar value. -/
def StatDict : Type := String → Option ℚ

/-- Setting one key of a statistics mapping. -/
def dinsert (k : String) (v : ℚ) (d : StatDict) : StatDict :=
  fun k2 => if k2 = k then some v else d k2

/-- Function get_classification_scores of src/Tools/classifiert/util.py:
count the four confusion combinations, assert that they cover every
label pair (PreconditionViolation otherwise, modelled as none), then
write the six derived metrics into the target mapping under the given
key prefix (a fresh empty mapping when no target is supplied). -/
def get_classification_scores (predicted labels : List ℚ)
    (target : Option StatDict) (keyPre : String) : Option StatDict :=
  let tp := countPairs predicted labels 1 1
  let fp := countPairs predicted labels 1 0
  let tn := countPairs predicted labels 0 0
  let fn := countPairs predicted labels 0 1
  if tp + fp + tn + fn = labels.length then
    let d0 := target.getD (fun _ => none)
    some (dinsert (keyPre ++ "npv") (negative_predictive_value tp fp tn fn)
         (dinsert (keyPre ++ "tnr") (true_negative_rate tp fp tn fn)
         (dinsert (keyPre ++ "tpr") (true_positive_rate tp fp tn fn)
         (dinsert (keyPre ++ "ppv") (positive_predictive_value tp fp tn fn)
         (dinsert (keyPre ++ "P4-metric") (P4_metric tp fp tn fn)
         (dinsert (keyPre ++ "accuracy") (accuracy tp fp tn fn) d0))))))
  else none

/-- Result of a completed external process, as surfaced by the process
library: exit code and captured output. -/
structure ProcResult where
  returncode : Int
  stdout : String
  stderr : String
deriving DecidableEq

/-- Fatal failure raised by run_program for a non-zero exit code,
carrying the program name and the exit code (both appear in the
assertion message of the source). -/
structure ProcessFailure where
  program : String
  exitCode : Int
deriving DecidableEq

/-- Function run_program of src/Tools/classifiert/util.py, observed at
its exit-code check: the launch itself and the optional log-file writes
are external effects; after them the source asserts that the exit code
is zero and otherwise raises with the program name and exit code. -/
def run_program (program : String) (result : ProcResult) : Except ProcessFailure ProcResult :=
  if result.returncode = 0 then .ok result
  else .error { program := program, exitCode := result.returncode }

/-- Leading digit run of a character list and the remainder, the way a
greedy digit group of the elapsed-time regex consumes input. -/
def takeDigits (s : List Char) : List Char × List Char :=
  (s.takeWhile Char.isDigit, s.dropWhile Char.isDigit)

/-- Numeric value of a digit run. -/
def natOfDigits (ds : List Char) : Nat :=
  ds.foldl (fun a c => 10 * a + (c.toNat - 48)) 0

/-- One mandatory digit group followed by a colon, as consumed by the
leading groups of the elapsed-time regex.  Greedy matching of a digit
run followed by a colon is deterministic: shrinking the run leaves a
digit where the colon is required. -/
def parseNatColon (s : List Char) : Option (Nat × List Char) :=
  let (ds, rest) := takeDigits s
  if ds.isEmpty then none
  else
    match rest with
    | ':' :: r => some (natOfDigits ds, r)
    | _ => none

/-- Seconds group of the elapsed-time regex: a digit run with an optional
fractional part, valued as the Python float of the matched text (exact
here, since the value is a finite decimal). -/
def parseSeconds (s : List Char) : Option (ℚ × List Char) :=
  let (ds, rest) := takeDigits s
  if ds.isEmpty then none
  else
    match rest with
    | '.' :: r2 =>
      let (fs, r3) := takeDigits r2
      if fs.isEmpty then some ((natOfDigits ds : ℚ), rest)
      else some ((natOfDigits ds : ℚ) + (natOfDigits fs : ℚ) / ((10 : ℚ) ^ fs.length), r3)
    | _ => some ((natOfDigits ds : ℚ), rest)

/-- Function parse_elapsed_time of src/Tools/classifiert/util.py.  The
source matches the anchored prefix regex of an optional hours group and
colon, a mandatory minutes group and colon, and a seconds group with
optional fraction, then sums the matched groups weighted 3600, 60 and 1.
Regex backtracking reduces to one alternative switch: when the
hours-present reading fails at the seconds group, the match is retried
with the first group as minutes (that retry always finds seconds, since
the position starts with the digits of the failed middle group). -/
def parse_elapsed_time (s : List Char) : Option ℚ :=
  match parseNatColon s with
  | none => none
  | some (g1, r1) =>
    match parseNatColon r1 with
    | some (g2, r2) =>
      match parseSeconds r2 with
      | some (sec, _) => some (3600 * (g1 : ℚ) + 60 * (g2 : ℚ) + sec)
      | none =>
        match parseSeconds r1 with
        | some (sec, _) => some (60 * (g1 : ℚ) + sec)
        | none => none
    | none =>
      match parseSeconds r1 with
      | some (sec, _) => some (60 * (g1 : ℚ) + sec)
      | none => none

/-- Last whitespace-delimited token of a line: line.split()[-1] in the
source.  An all-whitespace line yields the empty token; the source only
indexes into lines that contain a recognised label, which always have a
token. -/
def lastToken (l : List Char) : List Char :=
  ((l.reverse.dropWhile Char.isWhitespace).takeWhile (fun c => !c.isWhitespace)).reverse

/-- Substring containment on character lists: the Python in operator on
the line text. -/
def containsSub (pat : List Char) : List Char → Bool
  | [] => pat.isEmpty
  | c :: rest => pat.isPrefixOf (c :: rest) || containsSub pat rest

/-- Python float() of the plain decimal literals that appear in resource
reports: optional sign, digits with an optional fractional part.  Other
float syntax (exponents, infinities) never occurs in a report and is
modelled as a parse failure. -/
def pyFloatCore (l : List Char) : Option ℚ :=
  let (ds, r) := takeDigits l
  match r with
  | [] => if ds.isEmpty then none else some (natOfDigits ds : ℚ)
  | '.' :: r2 =>
    let (fs, r3) := takeDigits r2
    if r3.isEmpty then
      if ds.isEmpty && fs.isEmpty then none
      else some ((natOfDigits ds : ℚ) + (natOfDigits fs : ℚ) / ((10 : ℚ) ^ fs.length))
    else none
  | _ => none

/-- Python float() on a token, with optional sign. -/
def pyFloat (l : List Char) : Option ℚ :=
  match l with
  | '-' :: r => (pyFloatCore r).map Neg.neg
  | '+' :: r => pyFloatCore r
  | _ => pyFloatCore l

/-- Python int() of a decimal token, with optional sign. -/
def pyInt (l : List Char) : Option ℚ :=
  match l with
  | '-' :: r =>
    let (ds, rest) := takeDigits r
    if ds.isEmpty || !rest.isEmpty then none else some (-(natOfDigits ds : ℚ))
  | _ =>
    let (ds, rest) := takeDigits l
    if ds.isEmpty || !rest.isEmpty then none else some (natOfDigits ds : ℚ)

/-- One line of the loop in get_statistics_from_time_file: the first
matching field label determines the statistic written; a malformed value
(failed float or int conversion, or a percent field not ending in the
percent sign) raises, modelled as none; an unparseable elapsed time is
skipped without error. -/
def timeLineUpdate (keyPre : String) (d : StatDict) (l : List Char) : Option StatDict :=
  if containsSub ("User time".toList) l then
    (pyFloat (lastToken l)).map (fun v => dinsert (keyPre ++ "user-time") v d)
  else if containsSub ("System time".toList) l then
    (pyFloat (lastToken l)).map (fun v => dinsert (keyPre ++ "system-time") v d)
  else if containsSub ("Percent of CPU".toList) l then
    let t := lastToken l
    if t.getLast? = some '%' then
      (pyFloat t.dropLast).map (fun v => dinsert (keyPre ++ "percent-cpu") v d)
    else none
  else if containsSub ("Elapsed (wall clock) time".toList) l then
    match parse_elapsed_time (lastToken l) with
    | some v => some (dinsert (keyPre ++ "wall-clock-time") v d)
    | none => some d
  else if containsSub ("Maximum resident set size".toList) l then
    (pyInt (lastToken l)).map (fun v => dinsert (keyPre ++ "max-rss") v d)
  else some d

/-- Function get_statistics_from_time_file of
src/Tools/classifiert/util.py: fold the line handler over the lines of
the report, starting from the supplied target mapping or a fresh empty
one. -/
def get_statistics_from_time_file (lines : List (List Char))
    (target : Option StatDict) (keyPre : String) : Option StatDict :=
  lines.foldl (fun acc l => acc.bind (fun d => timeLineUpdate keyPre d l))
    (some (target.getD (fun _ => none)))

/-- Statistic keys that get_statistics_from_time_file may write under a
given prefix. -/
def timeKeys (keyPre : String) : List String :=
  [keyPre ++ "user-time", keyPre ++ "system-time", keyPre ++ "percent-cpu",
   keyPre ++ "wall-clock-time", keyPre ++ "max-rss"]

/-- Statistic keys that get_classification_scores writes under a given
prefix. -/
def scoreKeys (keyPre : String) : List String :=
  [keyPre ++ "accuracy", keyPre ++ "P4-metric", keyPre ++ "ppv",
   keyPre ++ "tpr", keyPre ++ "tnr", keyPre ++ "npv"]

theorem readN_exact (a r : List Nat) (n : Nat) (h : a.length = n) :
    readN n (a ++ r) = some (a, r) := by
  subst h
  simp [readN, List.take_left, List.drop_left]

theorem unpackU32_u32le (n : Nat) (h : n < 4294967296) : unpackU32 (u32le n) = n := by
  simp only [u32le, unpackU32]
  omega

theorem u32le_length (n : Nat) : (u32le n).length = 4 := rfl

theorem wordsOfBytes_flatMap (v : List Nat) (h : ∀ w ∈ v, w < 4294967296) :
    wordsOfBytes (v.flatMap u32le) = some v := by
  induction v with
  | nil => rfl
  | cons w ws ih =>
    have hw : w < 4294967296 := h w (List.mem_cons_self w ws)
    have hws : ∀ x ∈ ws, x < 4294967296 := fun x hx => h x (List.mem_cons_of_mem w hx)
    have hb : (w :: ws).flatMap u32le =
        w % 256 :: (w / 256 % 256 :: (w / 65536 % 256 :: (w / 16777216 % 256 :: ws.flatMap u32le))) := by
      simp [List.flatMap_cons, u32le]
    rw [hb]
    simp only [wordsOfBytes, ih hws, Option.map_some]
    have hval : w % 256 + 256 * (w / 256 % 256) + 65536 * (w / 65536 % 256) +
        16777216 * (w / 16777216 % 256) = w := by omega
    rw [hval]
    rfl

theorem flatMap_u32le_length (v : List Nat) : (v.flatMap u32le).length = 4 * v.length := by
  induction v with
  | nil => rfl
  | cons w ws ih =>
    simp [List.flatMap_cons, List.length_append, u32le_length, ih]
    omega

theorem read_string_write (s r : List Nat) :
    read_string (write_string s ++ r) = some (s, r) := by
  show read_string (s.length :: (s ++ r)) = some (s, r)
  simp [read_string, readN_exact s r s.length rfl]

theorem read_kv_u8 (key r : List Nat) (n : Nat) :
    read_kv_pair (write_kv_pair key (.u8 n) ++ r) = some ((key, .num n), r) := by
  have hb : write_kv_pair key (.u8 n) ++ r = write_string key ++ (ascii "ui08" ++ ([n] ++ r)) := by
    simp [write_kv_pair, List.append_assoc]
  rw [hb]
  simp only [read_kv_pair, read_string_write, Option.bind_eq_bind, Option.some_bind,
    readN_exact (ascii "ui08") ([n] ++ r) 4 rfl]
  rw [if_neg (show ¬(ascii "ui08" = ascii "strn") from by decide), if_pos trivial]
  rfl

theorem read_kv_u32 (key r : List Nat) (n : Nat) (h : n < 4294967296) :
    read_kv_pair (write_kv_pair key (.u32 n) ++ r) = some ((key, .num n), r) := by
  have hb : write_kv_pair key (.u32 n) ++ r = write_string key ++ (ascii "ui32" ++ (u32le n ++ r)) := by
    simp [write_kv_pair, List.append_assoc]
  rw [hb]
  simp only [read_kv_pair, read_string_write, Option.bind_eq_bind, Option.some_bind,
    readN_exact (ascii "ui32") (u32le n ++ r) 4 rfl]
  rw [if_neg (show ¬(ascii "ui32" = ascii "strn") from by decide),
      if_neg (show ¬(ascii "ui32" = ascii "ui08") from by decide), if_pos trivial]
  simp [readN_exact (u32le n) r 4 rfl, unpackU32_u32le n h]

theorem read_kv_str (key v r : List Nat) :
    read_kv_pair (write_kv_pair key (.str v) ++ r) = some ((key, .str v), r) := by
  have hb : write_kv_pair key (.str v) ++ r =
      write_string key ++ (ascii "strn" ++ (write_string v ++ r)) := by
    simp [write_kv_pair, List.append_assoc]
  rw [hb]
  simp only [read_kv_pair, read_string_write, Option.bind_eq_bind, Option.some_bind,
    readN_exact (ascii "strn") (write_string v ++ r) 4 rfl]
  rw [if_pos trivial]
  simp [read_string_write]

theorem read_entries_two (e1 e2 rest : List Nat) (p1 p2 : List Nat × BVal)
    (h1 : read_kv_pair (e1 ++ (e2 ++ rest)) = some (p1, e2 ++ rest))
    (h2 : read_kv_pair (e2 ++ rest) = some (p2, rest)) :
    read_entries 2 (e1 ++ (e2 ++ rest)) = some ([p1, p2], rest) := by
  simp only [read_entries, h1, h2, Option.bind_eq_bind, Option.some_bind]
  rfl

theorem read_entries_three (e1 e2 e3 rest : List Nat) (p1 p2 p3 : List Nat × BVal)
    (h1 : read_kv_pair (e1 ++ (e2 ++ (e3 ++ rest))) = some (p1, e2 ++ (e3 ++ rest)))
    (h2 : read_kv_pair (e2 ++ (e3 ++ rest)) = some (p2, e3 ++ rest))
    (h3 : read_kv_pair (e3 ++ rest) = some (p3, rest)) :
    read_entries 3 (e1 ++ (e2 ++ (e3 ++ rest))) = some ([p1, p2, p3], rest) := by
  simp only [read_entries, h1, h2, h3, Option.bind_eq_bind, Option.some_bind]
  rfl

theorem read_dictionary_two (e1 e2 rest : List Nat) (p1 p2 : List Nat × BVal)
    (h1 : read_kv_pair (e1 ++ (e2 ++ (ascii "tcid" ++ rest))) = some (p1, e2 ++ (ascii "tcid" ++ rest)))
    (h2 : read_kv_pair (e2 ++ (ascii "tcid" ++ rest)) = some (p2, ascii "tcid" ++ rest)) :
    read_dictionary (ascii "dict" ++ ([2] ++ (e1 ++ (e2 ++ (ascii "tcid" ++ rest))))) =
      some ([p1, p2], rest) := by
  simp only [read_dictionary, Option.bind_eq_bind]
  rw [readN_exact (ascii "dict") _ 4 rfl]
  simp only [Option.some_bind]
  rw [if_pos trivial]
  show ((read_entries 2 (e1 ++ (e2 ++ (ascii "tcid" ++ rest)))).bind _) = _
  rw [read_entries_two e1 e2 (ascii "tcid" ++ rest) p1 p2 h1 h2]
  simp only [Option.some_bind]
  rw [readN_exact (ascii "tcid") rest 4 rfl]
  simp only [Option.some_bind]
  rw [if_pos trivial]
  rfl


theorem read_dictionary_three (e1 e2 e3 rest : List Nat) (p1 p2 p3 : List Nat × BVal)
    (h1 : read_kv_pair (e1 ++ (e2 ++ (e3 ++ (ascii "tcid" ++ rest)))) =
      some (p1, e2 ++ (e3 ++ (ascii "tcid" ++ rest))))
    (h2 : read_kv_pair (e2 ++ (e3 ++ (ascii "tcid" ++ rest))) = some (p2, e3 ++ (ascii "tcid" ++ rest)))
    (h3 : read_kv_pair (e3 ++ (ascii "tcid" ++ rest)) = some (p3, ascii "tcid" ++ rest)) :
    read_dictionary (ascii "dict" ++ ([3] ++ (e1 ++ (e2 ++ (e3 ++ (ascii "tcid" ++ rest)))))) =
      some ([p1, p2, p3], rest) := by
  simp only [read_dictionary, Option.bind_eq_bind]
  rw [readN_exact (ascii "dict") _ 4 rfl]
  simp only [Option.some_bind]
  rw [if_pos trivial]
  show ((read_entries 3 (e1 ++ (e2 ++ (e3 ++ (ascii "tcid" ++ rest))))).bind _) = _
  rw [read_entries_three e1 e2 e3 (ascii "tcid" ++ rest) p1 p2 p3 h1 h2 h3]
  simp only [Option.some_bind]
  rw [readN_exact (ascii "tcid") rest 4 rfl]
  simp only [Option.some_bind]
  rw [if_pos trivial]
  rfl

theorem dictFind_fh_major :
    dictFind [(ascii "file_major_version", BVal.num 1), (ascii "file_minor_version", BVal.num 0)]
      (ascii "file_major_version") = some (.num 1) := by decide

theorem dictFind_fh_minor :
    dictFind [(ascii "file_major_version", BVal.num 1), (ascii "file_minor_version", BVal.num 0)]
      (ascii "file_minor_version") = some (.num 0) := by decide

theorem dictFind_th_rows (r c : Nat) :
    dictFind [(ascii "row_count", BVal.num r), (ascii "column_count", BVal.num c),
      (ascii "scalar_type_id", BVal.str (ascii "fl32"))] (ascii "row_count") = some (.num r) := rfl

theorem dictFind_th_cols (r c : Nat) :
    dictFind [(ascii "row_count", BVal.num r), (ascii "column_count", BVal.num c),
      (ascii "scalar_type_id", BVal.str (ascii "fl32"))] (ascii "column_count") = some (.num c) := rfl

theorem dictFind_th_scalar (r c : Nat) :
    dictFind [(ascii "row_count", BVal.num r), (ascii "column_count", BVal.num c),
      (ascii "scalar_type_id", BVal.str (ascii "fl32"))] (ascii "scalar_type_id") =
      some (.str (ascii "fl32")) := rfl

theorem inferRows_mul (r c : Nat) (hc : 1 ≤ c) : inferRows (r * c) c = some r := by
  simp only [inferRows, Nat.mul_mod_left]
  rw [if_neg (show ¬(c = 0) by omega), if_pos trivial, Nat.mul_div_cancel r hc]

theorem load_store_balsa_arr2 (r c : Nat) (dt : List Nat)
    (hlen : dt.length = r * c) (hc : 1 ≤ c) (hc32 : c < 4294967296) (hr32 : r < 4294967296)
    (hw : ∀ w ∈ dt, w < 4294967296) :
    load_dataset_balsa (store_dataset_balsa (.arr2 r c dt)) = some (.fl32, .arr2 r c dt) := by
  simp only [store_dataset_balsa]
  simp only [List.append_assoc]
  simp only [load_dataset_balsa, Option.bind_eq_bind]
  rw [readN_exact (ascii "blsa") _ 4 rfl]
  simp only [Option.some_bind]
  rw [if_pos trivial]
  rw [readN_exact (ascii "lend") _ 4 rfl]
  simp only [Option.some_bind]
  rw [if_pos trivial]
  rw [read_dictionary_two _ _ _
    (ascii "file_major_version", BVal.num 1) (ascii "file_minor_version", BVal.num 0)
    (read_kv_u8 _ _ 1) (read_kv_u8 _ _ 0)]
  simp only [Option.some_bind]
  rw [if_pos (by rw [dictFind_fh_major])]
  rw [if_pos (by rw [dictFind_fh_minor])]
  rw [readN_exact (ascii "tabl") _ 4 rfl]
  simp only [Option.some_bind]
  rw [if_pos trivial]
  rw [read_dictionary_three _ _ _ _
    (ascii "row_count", BVal.num r) (ascii "column_count", BVal.num c)
    (ascii "scalar_type_id", BVal.str (ascii "fl32"))
    (read_kv_u32 _ _ r hr32) (read_kv_u32 _ _ c hc32) (read_kv_str _ _ _)]
  simp only [Option.some_bind]
  rw [dictFind_th_rows, dictFind_th_cols, dictFind_th_scalar]
  dsimp only
  rw [if_pos (show ascii "fl32" = ascii "fl32" from rfl)]
  rw [readN_exact (dt.flatMap u32le) (ascii "lbat") (r * c * 4)
    (by rw [flatMap_u32le_length, hlen]; ring)]
  simp only [Option.some_bind]
  rw [wordsOfBytes_flatMap dt hw]
  simp only [Option.some_bind]
  rw [hlen, inferRows_mul r c hc]
  simp only [Option.some_bind]
  rw [if_pos trivial]
  rfl


theorem load_store_bin_arr2 (r c : Nat) (dt : List Nat)
    (hlen : dt.length = r * c) (hc : 1 ≤ c) (hc32 : c < 4294967296)
    (hw : ∀ w ∈ dt, w < 4294967296) :
    load_dataset_bin (store_dataset_bin (.arr2 r c dt)) = some (.arr2 r c dt) := by
  simp only [store_dataset_bin, load_dataset_bin]
  rw [readN_exact (u32le c) _ 4 (u32le_length c)]
  dsimp only
  rw [unpackU32_u32le c hc32, wordsOfBytes_flatMap dt hw]
  dsimp only
  rw [hlen, inferRows_mul r c hc]

theorem store_bin_arr1 (v : List Nat) :
    store_dataset_bin (.arr1 v) = store_dataset_bin (.arr2 v.length 1 v) := rfl

theorem store_balsa_arr1 (v : List Nat) :
    store_dataset_balsa (.arr1 v) = store_dataset_balsa (.arr2 v.length 1 v) := rfl

/-- C1: for every well-formed dataset (2-D float32 feature matrix or 1-D
float32 label vector), decoding the file produced by encoding it in the
bin or balsa format yields its values bit-identically, as the 2-D array
of the dataset's shape: a 2-D matrix round-trips to itself exactly, and a
1-D label vector of n values comes back as the (n, 1) column matrix,
since both decoders always return a 2-D array. -/
theorem c1_store_load_roundtrip (d : PyArray) (h : WF d) :
    load_dataset_bin (store_dataset_bin d) = some (as2D d) ∧
    load_dataset_balsa (store_dataset_balsa d) = some (.fl32, as2D d) := by
  cases d with
  | arr2 r c dt =>
    obtain ⟨hlen, hc, hc32, hr32, hw⟩ := h
    exact ⟨load_store_bin_arr2 r c dt hlen hc hc32 hw,
           load_store_balsa_arr2 r c dt hlen hc hc32 hr32 hw⟩
  | arr1 v =>
    obtain ⟨hl, hw⟩ := h
    have hlen : v.length = v.length * 1 := (Nat.mul_one v.length).symm
    constructor
    · rw [store_bin_arr1 v]
      exact load_store_bin_arr2 v.length 1 v hlen (le_refl 1) (by omega) hw
    · rw [store_balsa_arr1 v]
      exact load_store_balsa_arr2 v.length 1 v hlen (le_refl 1) (by omega) hl hw

/-- C1 counterexample to the claim as stated: encoding the 1-D label
vector of the single float 0.0 and decoding it back yields the (1, 1)
column matrix, which is not the original 1-D dataset, so decode after
encode is not the identity on 1-D label vectors. -/
theorem c1_counterexample :
    load_dataset_bin (store_dataset_bin (.arr1 [0])) = some (.arr2 1 1 [0]) ∧
    load_dataset_bin (store_dataset_bin (.arr1 [0])) ≠ some (.arr1 [0]) := by
  decide

/-- C1 witness: the amended round trip evaluated on a concrete 2 by 2
matrix and on a concrete 1-D label vector. -/
theorem c1_witness :
    (WF (.arr2 2 2 [1, 2, 3, 4]) ∧
      load_dataset_bin (store_dataset_bin (.arr2 2 2 [1, 2, 3, 4])) =
        some (as2D (.arr2 2 2 [1, 2, 3, 4])) ∧
      load_dataset_balsa (store_dataset_balsa (.arr2 2 2 [1, 2, 3, 4])) =
        some (.fl32, as2D (.arr2 2 2 [1, 2, 3, 4]))) ∧
    (WF (.arr1 [7, 8]) ∧
      load_dataset_bin (store_dataset_bin (.arr1 [7, 8])) = some (as2D (.arr1 [7, 8])) ∧
      load_dataset_balsa (store_dataset_balsa (.arr1 [7, 8])) = some (.fl32, as2D (.arr1 [7, 8]))) := by
  have h1 : WF (.arr2 2 2 [1, 2, 3, 4]) := by
    refine ⟨rfl, ?_, ?_, ?_, ?_⟩ <;> decide
  have h2 : WF (.arr1 [7, 8]) := by
    refine ⟨?_, ?_⟩ <;> decide
  have r1 := c1_store_load_roundtrip (.arr2 2 2 [1, 2, 3, 4]) h1
  have r2 := c1_store_load_roundtrip (.arr1 [7, 8]) h2
  exact ⟨⟨h1, r1.1, r1.2⟩, ⟨h2, r2.1, r2.2⟩⟩

theorem mem_generate_datasets (dataPoints : List (List ℚ)) (labels : List ℚ)
    (cachedF : Nat → Bool) (use_cache : Bool) (seed : Option Nat) (testPercentage : Option Nat)
    (idxF : Nat → List Nat) (dataSizes : List Nat) (s : Nat) (o : SizeOutcome)
    (hmem : (s, o) ∈ generate_datasets dataPoints labels cachedF use_cache seed
      testPercentage idxF dataSizes) :
    o = generateSize dataPoints labels (cachedF s) use_cache seed testPercentage (idxF s) s := by
  obtain ⟨s2, hs2, heq⟩ := List.mem_map.mp hmem
  have h1 : s2 = s := congrArg Prod.fst heq
  have h2 : generateSize dataPoints labels (cachedF s2) use_cache seed testPercentage (idxF s2) s2
      = o := congrArg Prod.snd heq
  rw [← h2, h1]

theorem generateSize_not_skipped (dataPoints : List (List ℚ)) (labels : List ℚ)
    (cached use_cache : Bool) (k : Nat) (testPercentage : Option Nat)
    (idx : List Nat) (s : Nat) :
    generateSize dataPoints labels cached use_cache (some k) testPercentage idx s ≠ .skipped := by
  unfold generateSize
  have hc : (cached && use_cache && (some k).isNone) = false := by simp
  rw [hc]
  simp only [Bool.false_eq_true, if_false]
  by_cases hlab : labels.all (fun l => decide (l = 0 ∨ l = 1))
  · rw [if_pos hlab]
    cases hs : sample_dataset dataPoints labels (s + testSizeOf testPercentage s) idx false with
    | none => simp
    | some pr => simp
  · rw [if_neg hlab]
    simp

/-- C2: for every size list, every useCache value and every explicit
(non-None) seed, generate_datasets never takes the cache-skip branch for
any requested size; whenever it regenerates, the trace starts by removing
the stale cache files for the key and contains a training-split rewrite
in every supported format. -/
theorem c2_explicit_seed_regenerates (dataPoints : List (List ℚ)) (labels : List ℚ)
    (cachedF : Nat → Bool) (use_cache : Bool) (k : Nat) (testPercentage : Option Nat)
    (idxF : Nat → List Nat) (dataSizes : List Nat) (s : Nat) (o : SizeOutcome)
    (hmem : (s, o) ∈ generate_datasets dataPoints labels cachedF use_cache (some k)
      testPercentage idxF dataSizes) :
    o ≠ .skipped ∧
    ∀ evts, o = .regenerated evts →
      evts.head? = some (.removeCache s) ∧
      ∀ f ∈ DATA_FORMATS, ∃ rows lbls, Event.store .train f rows lbls ∈ evts := by
  have ho := mem_generate_datasets dataPoints labels cachedF use_cache (some k)
    testPercentage idxF dataSizes s o hmem
  refine ⟨ho ▸ generateSize_not_skipped dataPoints labels (cachedF s) use_cache k
    testPercentage (idxF s) s, ?_⟩
  intro evts hreg
  rw [ho] at hreg
  unfold generateSize at hreg
  have hc : (cachedF s && use_cache && (some k).isNone) = false := by simp
  rw [hc] at hreg
  simp only [Bool.false_eq_true, if_false] at hreg
  by_cases hlab : labels.all (fun l => decide (l = 0 ∨ l = 1))
  · rw [if_pos hlab] at hreg
    cases hs : sample_dataset dataPoints labels (s + testSizeOf testPercentage s) (idxF s) false with
    | none => rw [hs] at hreg; cases hreg
    | some pr =>
      obtain ⟨sd, sl⟩ := pr
      rw [hs] at hreg
      injection hreg with hreg
      subst hreg
      constructor
      · rfl
      · intro f hf
        refine ⟨sd.take s, sl.take s, ?_⟩
        have hmap : Event.store .train f (sd.take s) (sl.take s) ∈
            DATA_FORMATS.map (fun f => Event.store .train f (sd.take s) (sl.take s)) :=
          List.mem_map_of_mem _ hf
        exact List.mem_append.mpr (Or.inl (List.mem_append.mpr (Or.inr hmap)))
  · rw [if_neg hlab] at hreg
    cases hreg

/-- C3: for every requested size that generate_datasets regenerates, one
sample of exactly size plus testSize rows is drawn without replacement,
where testSize is round(testPercentage times size over 100) when a
percentage is given and 0 otherwise; the first size sampled rows and
labels are stored as the training split in every supported format, and
the remaining testSize rows as the test split in every supported format
when a percentage is given. -/
theorem c3_sample_and_split (dataPoints : List (List ℚ)) (labels : List ℚ)
    (cachedF : Nat → Bool) (use_cache : Bool) (seed : Option Nat) (testPercentage : Option Nat)
    (idxF : Nat → List Nat) (dataSizes : List Nat) (s : Nat) (o : SizeOutcome)
    (hmem : (s, o) ∈ generate_datasets dataPoints labels cachedF use_cache seed
      testPercentage idxF dataSizes)
    (hnoskip : o ≠ .skipped)
    (hlen : dataPoints.length = labels.length)
    (hlab : ∀ l ∈ labels, l = 0 ∨ l = 1)
    (hN : s + testSizeOf testPercentage s ≤ dataPoints.length)
    (hidx : (idxF s).length = s + testSizeOf testPercentage s) :
    ∃ (sd : List (List ℚ)) (sl : List ℚ) (tstores : List Event),
      sd.length = s + testSizeOf testPercentage s ∧
      sl.length = s + testSizeOf testPercentage s ∧
      o = .regenerated ([.removeCache s, .draw (s + testSizeOf testPercentage s) false] ++
        DATA_FORMATS.map (fun f => .store .train f (sd.take s) (sl.take s)) ++ tstores) ∧
      (testPercentage = none → tstores = []) ∧
      (∀ p, testPercentage = some p →
        tstores = DATA_FORMATS.map (fun f => .store .test f (sd.drop s) (sl.drop s))) ∧
      (sd.take s).length = s ∧ (sd.drop s).length = testSizeOf testPercentage s ∧
      sd.take s ++ sd.drop s = sd ∧ sl.take s ++ sl.drop s = sl ∧
      (testPercentage = none → testSizeOf testPercentage s = 0) ∧
      (∀ p, testPercentage = some p → testSizeOf testPercentage s = pyRoundDiv (p * s) 100) := by
  have ho := mem_generate_datasets dataPoints labels cachedF use_cache seed
    testPercentage idxF dataSizes s o hmem
  have hlabB : labels.all (fun l => decide (l = 0 ∨ l = 1)) = true :=
    List.all_eq_true.mpr (fun l hl => decide_eq_true (hlab l hl))
  have hnotskip : (cachedF s && use_cache && seed.isNone) = false := by
    cases hcon : (cachedF s && use_cache && seed.isNone) with
    | false => rfl
    | true =>
      exact absurd (show o = .skipped by rw [ho]; unfold generateSize; rw [if_pos hcon]) hnoskip
  have hsample : sample_dataset dataPoints labels (s + testSizeOf testPercentage s) (idxF s) false =
      some ((idxF s).map (fun i => dataPoints.getD i []), (idxF s).map (fun i => labels.getD i 0)) := by
    unfold sample_dataset
    rw [if_pos hlen, if_pos (Or.inl hN)]
  have hlensd : ((idxF s).map (fun i => dataPoints.getD i [])).length =
      s + testSizeOf testPercentage s := by rw [List.length_map, hidx]
  have hlensl : ((idxF s).map (fun i => labels.getD i 0)).length =
      s + testSizeOf testPercentage s := by rw [List.length_map, hidx]
  have hreg : o = .regenerated
      ([.removeCache s, .draw (s + testSizeOf testPercentage s) false] ++
        DATA_FORMATS.map (fun f => Event.store .train f
          (((idxF s).map (fun i => dataPoints.getD i [])).take s)
          (((idxF s).map (fun i => labels.getD i 0)).take s)) ++
        (match testPercentage with
         | none => []
         | some _ => DATA_FORMATS.map (fun f => Event.store .test f
            (((idxF s).map (fun i => dataPoints.getD i [])).drop s)
            (((idxF s).map (fun i => labels.getD i 0)).drop s)))) := by
    rw [ho]
    unfold generateSize
    rw [hnotskip]
    simp only [Bool.false_eq_true, if_false]
    rw [if_pos hlabB, hsample]
  rcases testPercentage with _ | p
  · refine ⟨(idxF s).map (fun i => dataPoints.getD i []),
      (idxF s).map (fun i => labels.getD i 0), [],
      hlensd, hlensl, hreg, fun _ => rfl, ?_, ?_, ?_,
      List.take_append_drop s _, List.take_append_drop s _, fun _ => rfl, ?_⟩
    · intro p hp
      cases hp
    · rw [List.length_take, hlensd]
      omega
    · rw [List.length_drop, hlensd]
      omega
    · intro p hp
      cases hp
  · refine ⟨(idxF s).map (fun i => dataPoints.getD i []),
      (idxF s).map (fun i => labels.getD i 0),
      DATA_FORMATS.map (fun f => Event.store .test f
        (((idxF s).map (fun i => dataPoints.getD i [])).drop s)
        (((idxF s).map (fun i => labels.getD i 0)).drop s)),
      hlensd, hlensl, hreg, ?_, fun q hq => ?_, ?_, ?_,
      List.take_append_drop s _, List.take_append_drop s _, ?_, fun q hq => ?_⟩
    · intro hco
      cases hco
    · cases hq
      rfl
    · rw [List.length_take, hlensd]
      omega
    · rw [List.length_drop, hlensd]
      omega
    · intro hco
      cases hco
    · cases hq
      rfl

/-- C6: sampling more rows than the corpus holds without replacement is
an assertion failure (PreconditionViolation); when the requested size
does not exceed the corpus or replacement is allowed, sample_dataset
succeeds and returns exactly the requested number of rows and labels. -/
theorem c6_sample_dataset_precondition (dataPoints : List (List ℚ)) (labels : List ℚ)
    (n : Nat) (idx : List Nat) (replace : Bool)
    (hlen : dataPoints.length = labels.length) :
    (dataPoints.length < n → replace = false →
      sample_dataset dataPoints labels n idx replace = none) ∧
    ((n ≤ dataPoints.length ∨ replace = true) → idx.length = n →
      ∃ (sd : List (List ℚ)) (sl : List ℚ),
        sample_dataset dataPoints labels n idx replace = some (sd, sl) ∧
        sd.length = n ∧ sl.length = n) := by
  constructor
  · intro hover hrep
    unfold sample_dataset
    rw [if_pos hlen, if_neg]
    push_neg
    refine ⟨by omega, ?_⟩
    rw [hrep]
    simp
  · intro hok hidx
    unfold sample_dataset
    rw [if_pos hlen, if_pos hok]
    exact ⟨_, _, rfl, by rw [List.length_map, hidx], by rw [List.length_map, hidx]⟩


/-- C2 witness: with seed 7, a complete cache and useCache on, the single
requested size is still not skipped. -/
theorem c2_witness :
    generateSize [[1], [2]] [0, 1] true true (some 7) none [0, 1] 2 ≠ .skipped := by
  have hmem : ((2 : Nat), generateSize [[1], [2]] [0, 1] true true (some 7) none [0, 1] 2) ∈
      generate_datasets [[1], [2]] [0, 1] (fun _ => true) true (some 7) none
        (fun _ => [0, 1]) [2] := by
    simp [generate_datasets]
  exact (c2_explicit_seed_regenerates [[1], [2]] [0, 1] (fun _ => true) true 7 none
    (fun _ => [0, 1]) [2] 2 _ hmem).1

/-- C3 witness: a 4-row corpus, size 2 with a 50 percent test split,
giving a draw of 3 rows split 2 and 1. -/
theorem c3_witness :
    ∃ (sd : List (List ℚ)) (sl : List ℚ) (tstores : List Event),
      sd.length = 2 + testSizeOf (some 50) 2 ∧
      sl.length = 2 + testSizeOf (some 50) 2 ∧
      generateSize [[1], [2], [3], [4]] [0, 1, 0, 1] false true none (some 50) [0, 1, 2] 2 =
        .regenerated ([.removeCache 2, .draw (2 + testSizeOf (some 50) 2) false] ++
          DATA_FORMATS.map (fun f => .store .train f (sd.take 2) (sl.take 2)) ++ tstores) ∧
      (some 50 = none → tstores = []) ∧
      (∀ p, some 50 = some p →
        tstores = DATA_FORMATS.map (fun f => .store .test f (sd.drop 2) (sl.drop 2))) ∧
      (sd.take 2).length = 2 ∧ (sd.drop 2).length = testSizeOf (some 50) 2 ∧
      sd.take 2 ++ sd.drop 2 = sd ∧ sl.take 2 ++ sl.drop 2 = sl ∧
      (some 50 = none → testSizeOf (some 50) 2 = 0) ∧
      (∀ p, some 50 = some p → testSizeOf (some 50) 2 = pyRoundDiv (p * 2) 100) := by
  have hmem : ((2 : Nat),
      generateSize [[1], [2], [3], [4]] [0, 1, 0, 1] false true none (some 50) [0, 1, 2] 2) ∈
      generate_datasets [[1], [2], [3], [4]] [0, 1, 0, 1] (fun _ => false) true none (some 50)
        (fun _ => [0, 1, 2]) [2] := by
    simp [generate_datasets]
  exact c3_sample_and_split [[1], [2], [3], [4]] [0, 1, 0, 1] (fun _ => false) true none (some 50)
    (fun _ => [0, 1, 2]) [2] 2 _ hmem (by decide) (by decide) (by decide) (by decide) (by decide)

/-- C6 witness: a 2-row corpus; requesting 3 rows without replacement
fails, requesting 2 rows succeeds with 2 rows and 2 labels. -/
theorem c6_witness :
    sample_dataset [[1], [2]] [0, 1] 3 [] false = none ∧
    ∃ (sd : List (List ℚ)) (sl : List ℚ),
      sample_dataset [[1], [2]] [0, 1] 2 [0, 1] false = some (sd, sl) ∧
      sd.length = 2 ∧ sl.length = 2 := by
  have h1 := c6_sample_dataset_precondition [[1], [2]] [0, 1] 3 [] false (by decide)
  have h2 := c6_sample_dataset_precondition [[1], [2]] [0, 1] 2 [0, 1] false (by decide)
  exact ⟨h1.1 (by decide) rfl, h2.2 (Or.inl (by decide)) (by decide)⟩

theorem string_append_ne (p a b : String) (h : a ≠ b) : p ++ a ≠ p ++ b := by
  intro hc
  have hd := congrArg String.data hc
  rw [String.data_append, String.data_append] at hd
  exact h (String.ext (List.append_cancel_left hd))

/-- Example label sequences whose confusion counts are TP=8, FP=1, TN=8,
FN=3 (8 pairs 1and1, one pair 1and0, 8 pairs 0and0, 3 pairs 0and1). -/
def predExample : List ℚ :=
  List.replicate 8 1 ++ [1] ++ List.replicate 8 0 ++ List.replicate 3 0

/-- True labels matching predExample: see predExample. -/
def truthExample : List ℚ :=
  List.replicate 8 1 ++ [0] ++ List.replicate 8 0 ++ List.replicate 3 1

/-- C4 counterexample to the claim as stated: on sequences with confusion
counts TP=8, FP=1, TN=8, FN=3 the recall (tpr) computed by the scoring
code is TP/(TP+FN) = 8/11, not 0.8 as the claim asserts. -/
theorem c4_counterexample :
    (get_classification_scores predExample truthExample none "").map (fun d => d "tpr") =
      some (some (8 / 11)) ∧ (8 / 11 : ℚ) ≠ 4 / 5 := by
  have h11 : countPairs predExample truthExample 1 1 = 8 := by decide
  have h10 : countPairs predExample truthExample 1 0 = 1 := by decide
  have h00 : countPairs predExample truthExample 0 0 = 8 := by decide
  have h01 : countPairs predExample truthExample 0 1 = 3 := by decide
  have hlen : truthExample.length = 20 := by decide
  constructor
  · unfold get_classification_scores
    rw [h11, h10, h00, h01, hlen, if_pos (by norm_num)]
    simp only [Option.map_some', dinsert]
    rw [if_neg (show ¬("tpr" = "" ++ "npv") from by decide),
        if_neg (show ¬("tpr" = "" ++ "tnr") from by decide),
        if_pos (show ("tpr" = "" ++ "tpr") from by decide)]
    norm_num [true_positive_rate]
  · norm_num

/-- C4 (amended): for equal-length predicted/true label sequences whose
confusion counts are TP=8, FP=1, TN=8, FN=3, the score operation returns
accuracy = 4/5, precision (ppv) = 8/9, recall (tpr) = 8/11, specificity
(tnr) = 8/9 and NPV = 8/11. -/
theorem c4_scores_at_8_1_8_3 (predicted labels : List ℚ) (target : Option StatDict)
    (keyPre : String)
    (h11 : countPairs predicted labels 1 1 = 8) (h10 : countPairs predicted labels 1 0 = 1)
    (h00 : countPairs predicted labels 0 0 = 8) (h01 : countPairs predicted labels 0 1 = 3)
    (hlen : labels.length = 20) :
    ∃ d, get_classification_scores predicted labels target keyPre = some d ∧
      d (keyPre ++ "accuracy") = some (4 / 5) ∧
      d (keyPre ++ "ppv") = some (8 / 9) ∧
      d (keyPre ++ "tpr") = some (8 / 11) ∧
      d (keyPre ++ "tnr") = some (8 / 9) ∧
      d (keyPre ++ "npv") = some (8 / 11) := by
  have hne1 : keyPre ++ "accuracy" ≠ keyPre ++ "npv" := string_append_ne _ _ _ (by decide)
  have hne2 : keyPre ++ "accuracy" ≠ keyPre ++ "tnr" := string_append_ne _ _ _ (by decide)
  have hne3 : keyPre ++ "accuracy" ≠ keyPre ++ "tpr" := string_append_ne _ _ _ (by decide)
  have hne4 : keyPre ++ "accuracy" ≠ keyPre ++ "ppv" := string_append_ne _ _ _ (by decide)
  have hne5 : keyPre ++ "accuracy" ≠ keyPre ++ "P4-metric" := string_append_ne _ _ _ (by decide)
  have hne6 : keyPre ++ "ppv" ≠ keyPre ++ "npv" := string_append_ne _ _ _ (by decide)
  have hne7 : keyPre ++ "ppv" ≠ keyPre ++ "tnr" := string_append_ne _ _ _ (by decide)
  have hne8 : keyPre ++ "ppv" ≠ keyPre ++ "tpr" := string_append_ne _ _ _ (by decide)
  have hne9 : keyPre ++ "tpr" ≠ keyPre ++ "npv" := string_append_ne _ _ _ (by decide)
  have hne10 : keyPre ++ "tpr" ≠ keyPre ++ "tnr" := string_append_ne _ _ _ (by decide)
  have hne11 : keyPre ++ "tnr" ≠ keyPre ++ "npv" := string_append_ne _ _ _ (by decide)
  unfold get_classification_scores
  rw [h11, h10, h00, h01, hlen]
  rw [if_pos (by norm_num)]
  refine ⟨_, rfl, ?_, ?_, ?_, ?_, ?_⟩
  · simp only [dinsert, if_neg hne1, if_neg hne2, if_neg hne3, if_neg hne4, if_neg hne5]
    rw [if_pos trivial]
    norm_num [accuracy]
  · simp only [dinsert, if_neg hne6, if_neg hne7, if_neg hne8]
    rw [if_pos trivial]
    norm_num [positive_predictive_value]
  · simp only [dinsert, if_neg hne9, if_neg hne10]
    rw [if_pos trivial]
    norm_num [true_positive_rate]
  · simp only [dinsert, if_neg hne11]
    rw [if_pos trivial]
    norm_num [true_negative_rate]
  · simp only [dinsert]
    rw [if_pos trivial]
    norm_num [negative_predictive_value]

/-- C4 witness: the amended scores evaluated on the concrete example
sequences. -/
theorem c4_witness :
    ∃ d, get_classification_scores predExample truthExample none "" = some d ∧
      d ("" ++ "accuracy") = some (4 / 5) ∧
      d ("" ++ "ppv") = some (8 / 9) ∧
      d ("" ++ "tpr") = some (8 / 11) ∧
      d ("" ++ "tnr") = some (8 / 9) ∧
      d ("" ++ "npv") = some (8 / 11) :=
  c4_scores_at_8_1_8_3 predExample truthExample none "" (by decide) (by decide) (by decide)
    (by decide) (by decide)

/-- C5: every scoring ratio with a zero denominator evaluates to 0
rather than raising; in particular scoring two empty label sequences
(confusion counts all zero) yields 0 for every metric without any
assertion failure. -/
theorem c5_zero_denominators (tp fp tn fn : Nat) :
    (tp + fp + tn + fn = 0 → accuracy tp fp tn fn = 0) ∧
    (4 * tp * tn + (tp + tn) * (fp + fn) = 0 → P4_metric tp fp tn fn = 0) ∧
    (tp + fp = 0 → positive_predictive_value tp fp tn fn = 0) ∧
    (tp + fn = 0 → true_positive_rate tp fp tn fn = 0) ∧
    (tn + fp = 0 → true_negative_rate tp fp tn fn = 0) ∧
    (tn + fn = 0 → negative_predictive_value tp fp tn fn = 0) ∧
    (∃ d, get_classification_scores [] [] none "" = some d ∧
      d "accuracy" = some 0 ∧ d "P4-metric" = some 0 ∧ d "ppv" = some 0 ∧
      d "tpr" = some 0 ∧ d "tnr" = some 0 ∧ d "npv" = some 0) := by
  refine ⟨fun h => ?_, fun h => ?_, fun h => ?_, fun h => ?_, fun h => ?_, fun h => ?_, ?_⟩
  · unfold accuracy
    rw [if_pos h]
  · unfold P4_metric
    rw [if_pos h]
  · unfold positive_predictive_value
    rw [if_pos h]
  · unfold true_positive_rate
    rw [if_pos h]
  · unfold true_negative_rate
    rw [if_pos h]
  · unfold negative_predictive_value
    rw [if_pos h]
  · refine ⟨_, rfl, ?_, ?_, ?_, ?_, ?_, ?_⟩ <;>
      · simp only [dinsert]
        norm_num [accuracy, P4_metric, positive_predictive_value, true_positive_rate,
          true_negative_rate, negative_predictive_value, countPairs]

/-- C5 witness: the zero-denominator tie-break evaluated at the all-zero
confusion matrix. -/
theorem c5_witness :
    accuracy 0 0 0 0 = 0 ∧ P4_metric 0 0 0 0 = 0 ∧
    positive_predictive_value 0 0 0 0 = 0 ∧ true_positive_rate 0 0 0 0 = 0 ∧
    true_negative_rate 0 0 0 0 = 0 ∧ negative_predictive_value 0 0 0 0 = 0 := by
  have h := c5_zero_denominators 0 0 0 0
  exact ⟨h.1 rfl, h.2.1 rfl, h.2.2.1 rfl, h.2.2.2.1 rfl, h.2.2.2.2.1 rfl, h.2.2.2.2.2.1 rfl⟩

/-- C7: a non-zero exit code makes run_program fail with a ProcessFailure
carrying the program name and the exit code; it never returns normally in
that case. -/
theorem c7_nonzero_exit_fails (program : String) (result : ProcResult)
    (h : result.returncode ≠ 0) :
    run_program program result = .error { program := program, exitCode := result.returncode } ∧
    ∀ r, run_program program result ≠ .ok r := by
  unfold run_program
  rw [if_neg h]
  exact ⟨rfl, fun r hc => by cases hc⟩

/-- C7 witness: exit code 2 produces the failure record with exit code 2
for the wrapped program. -/
theorem c7_witness :
    run_program "balsa_train" { returncode := 2, stdout := "", stderr := "" } =
      .error { program := "balsa_train", exitCode := 2 } :=
  (c7_nonzero_exit_fails "balsa_train" { returncode := 2, stdout := "", stderr := "" }
    (by decide)).1

theorem countPairs_nil (pv tv : ℚ) : countPairs [] [] pv tv = 0 := rfl

theorem countPairs_cons (p t pv tv : ℚ) (ps ts : List ℚ) :
    countPairs (p :: ps) (t :: ts) pv tv =
      (if p = pv ∧ t = tv then 1 else 0) + countPairs ps ts pv tv := by
  simp only [countPairs, List.zip_cons_cons, List.filter_cons]
  by_cases h1 : p = pv <;> by_cases h2 : t = tv <;>
    simp [h1, h2, Nat.add_comm]

theorem countPairs_sum_le (ps ts : List ℚ) (h : ps.length = ts.length) :
    countPairs ps ts 1 1 + countPairs ps ts 1 0 + countPairs ps ts 0 0 +
      countPairs ps ts 0 1 ≤ ts.length := by
  induction ps generalizing ts with
  | nil =>
    cases ts with
    | nil => simp [countPairs_nil]
    | cons t ts => simp at h
  | cons p ps ih =>
    cases ts with
    | nil => simp at h
    | cons t ts =>
      have h2 : ps.length = ts.length := by simpa using h
      rw [countPairs_cons, countPairs_cons, countPairs_cons, countPairs_cons, List.length_cons]
      have htail := ih ts h2
      have hh : (if p = 1 ∧ t = 1 then 1 else 0) + (if p = 1 ∧ t = 0 then 1 else 0) +
          (if p = 0 ∧ t = 0 then 1 else 0) + (if p = 0 ∧ t = 1 then 1 else 0) ≤ 1 := by
        by_cases hp0 : p = 0 <;> by_cases ht0 : t = 0 <;> by_cases ht1 : t = 1 <;>
          by_cases hp1 : p = 1 <;> simp_all
      omega

theorem countPairs_sum_eq_iff (ps ts : List ℚ) (h : ps.length = ts.length) :
    countPairs ps ts 1 1 + countPairs ps ts 1 0 + countPairs ps ts 0 0 +
      countPairs ps ts 0 1 = ts.length ↔
    ((∀ p ∈ ps, p = 0 ∨ p = 1) ∧ (∀ t ∈ ts, t = 0 ∨ t = 1)) := by
  induction ps generalizing ts with
  | nil =>
    cases ts with
    | nil => simp [countPairs_nil]
    | cons t ts => simp at h
  | cons p ps ih =>
    cases ts with
    | nil => simp at h
    | cons t ts =>
      have h2 : ps.length = ts.length := by simpa using h
      rw [countPairs_cons, countPairs_cons, countPairs_cons, countPairs_cons, List.length_cons,
        List.forall_mem_cons, List.forall_mem_cons]
      have htail := countPairs_sum_le ps ts h2
      have hiff := ih ts h2
      have hhead : (if p = 1 ∧ t = 1 then 1 else 0) + (if p = 1 ∧ t = 0 then 1 else 0) +
          (if p = 0 ∧ t = 0 then 1 else 0) + (if p = 0 ∧ t = 1 then 1 else 0) =
          (if (p = 0 ∨ p = 1) ∧ (t = 0 ∨ t = 1) then 1 else 0) := by
        by_cases hp0 : p = 0 <;> by_cases ht0 : t = 0 <;> by_cases ht1 : t = 1 <;>
          by_cases hp1 : p = 1 <;> simp_all
      constructor
      · intro hsum
        by_cases hcond : (p = 0 ∨ p = 1) ∧ (t = 0 ∨ t = 1)
        · have h1 : (if p = 1 ∧ t = 1 then 1 else 0) + (if p = 1 ∧ t = 0 then 1 else 0) +
              (if p = 0 ∧ t = 0 then 1 else 0) + (if p = 0 ∧ t = 1 then 1 else 0) = 1 := by
            rw [hhead, if_pos hcond]
          have hts : countPairs ps ts 1 1 + countPairs ps ts 1 0 + countPairs ps ts 0 0 +
              countPairs ps ts 0 1 = ts.length := by omega
          obtain ⟨hps, hts2⟩ := hiff.mp hts
          exact ⟨⟨hcond.1, hps⟩, ⟨hcond.2, hts2⟩⟩
        · exfalso
          have h0 : (if p = 1 ∧ t = 1 then 1 else 0) + (if p = 1 ∧ t = 0 then 1 else 0) +
              (if p = 0 ∧ t = 0 then 1 else 0) + (if p = 0 ∧ t = 1 then 1 else 0) = 0 := by
            rw [hhead, if_neg hcond]
          omega
      · intro ⟨⟨hp, hps⟩, ⟨ht, hts2⟩⟩
        have h1 : (if p = 1 ∧ t = 1 then 1 else 0) + (if p = 1 ∧ t = 0 then 1 else 0) +
            (if p = 0 ∧ t = 0 then 1 else 0) + (if p = 0 ∧ t = 1 then 1 else 0) = 1 := by
          rw [hhead, if_pos ⟨hp, ht⟩]
        have hts3 := hiff.mpr ⟨hps, hts2⟩
        omega

/-- C9: for equal-length predicted/true label sequences, the four
confusion counts sum to the input length - and hence the scoring
assertion passes and get_classification_scores returns a result - if and
only if every value in both sequences is exactly 0 or 1; any other value
makes the assertion (the PreconditionViolation branch) fire. -/
theorem c9_counts_cover_iff_binary (predicted labels : List ℚ) (target : Option StatDict)
    (keyPre : String) (hlen : predicted.length = labels.length) :
    (countPairs predicted labels 1 1 + countPairs predicted labels 1 0 +
      countPairs predicted labels 0 0 + countPairs predicted labels 0 1 = labels.length ↔
      ((∀ p ∈ predicted, p = 0 ∨ p = 1) ∧ (∀ t ∈ labels, t = 0 ∨ t = 1))) ∧
    ((get_classification_scores predicted labels target keyPre).isSome ↔
      ((∀ p ∈ predicted, p = 0 ∨ p = 1) ∧ (∀ t ∈ labels, t = 0 ∨ t = 1))) := by
  have hmain := countPairs_sum_eq_iff predicted labels hlen
  refine ⟨hmain, ?_⟩
  unfold get_classification_scores
  by_cases hsum : countPairs predicted labels 1 1 + countPairs predicted labels 1 0 +
      countPairs predicted labels 0 0 + countPairs predicted labels 0 1 = labels.length
  · rw [if_pos hsum]
    simpa using hmain.mp hsum
  · rw [if_neg hsum]
    simp only [Option.isSome_none, Bool.false_eq_true, false_iff]
    exact fun hc => hsum (hmain.mpr hc)

/-- C9 witness: a sequence containing the out-of-domain value 2 fails the
assertion, and the iff evaluates accordingly on concrete input. -/
theorem c9_witness :
    (countPairs [1, 2] [1, 1] 1 1 + countPairs [1, 2] [1, 1] 1 0 +
      countPairs [1, 2] [1, 1] 0 0 + countPairs [1, 2] [1, 1] 0 1 = 2 ↔
      ((∀ p ∈ ([1, 2] : List ℚ), p = 0 ∨ p = 1) ∧ (∀ t ∈ ([1, 1] : List ℚ), t = 0 ∨ t = 1))) ∧
    ((get_classification_scores [1, 2] [1, 1] none "").isSome ↔
      ((∀ p ∈ ([1, 2] : List ℚ), p = 0 ∨ p = 1) ∧ (∀ t ∈ ([1, 1] : List ℚ), t = 0 ∨ t = 1))) := by
  have h := c9_counts_cover_iff_binary [1, 2] [1, 1] none "" (by decide)
  simpa using h

theorem takeDigits_exact (ds rest : List Char) (hds : ∀ c ∈ ds, c.isDigit)
    (hrest : ∀ c ∈ rest.take 1, c.isDigit = false) :
    takeDigits (ds ++ rest) = (ds, rest) := by
  unfold takeDigits
  induction ds with
  | nil =>
    simp only [List.nil_append]
    cases rest with
    | nil => rfl
    | cons c cs =>
      have hc : c.isDigit = false := hrest c (by simp)
      simp [List.takeWhile_cons, List.dropWhile_cons, hc]
  | cons d ds ih =>
    have hd : d.isDigit := hds d (by simp)
    have hds2 : ∀ c ∈ ds, c.isDigit := fun c hc => hds c (by simp [hc])
    have hih := ih hds2
    simp only [List.cons_append, List.takeWhile_cons, List.dropWhile_cons, hd, if_true]
    rw [Prod.mk.injEq] at hih ⊢
    exact ⟨by rw [hih.1], hih.2⟩

theorem parseNatColon_found (ds r : List Char) (hne : ds ≠ []) (hds : ∀ c ∈ ds, c.isDigit) :
    parseNatColon (ds ++ ':' :: r) = some (natOfDigits ds, r) := by
  unfold parseNatColon
  rw [takeDigits_exact ds (':' :: r) hds (by intro c hc; simp at hc; subst hc; rfl)]
  simp [hne]

theorem parseNatColon_plain_digits (ds : List Char) (hds : ∀ c ∈ ds, c.isDigit) :
    parseNatColon ds = none := by
  unfold parseNatColon
  have h := takeDigits_exact ds [] hds (by intro c hc; simp at hc)
  rw [List.append_nil] at h
  rw [h]
  by_cases hne : ds.isEmpty <;> simp [hne]

theorem parseNatColon_dot (ds r : List Char) (hds : ∀ c ∈ ds, c.isDigit) :
    parseNatColon (ds ++ '.' :: r) = none := by
  unfold parseNatColon
  rw [takeDigits_exact ds ('.' :: r) hds (by intro c hc; simp at hc; subst hc; rfl)]
  by_cases hne : ds.isEmpty <;> simp [hne]

theorem parseSeconds_plain (ds : List Char) (hne : ds ≠ []) (hds : ∀ c ∈ ds, c.isDigit) :
    parseSeconds ds = some ((natOfDigits ds : ℚ), []) := by
  unfold parseSeconds
  have h := takeDigits_exact ds [] hds (by intro c hc; simp at hc)
  rw [List.append_nil] at h
  rw [h]
  simp [hne]

theorem parseSeconds_frac (ds fs : List Char) (hne : ds ≠ []) (hds : ∀ c ∈ ds, c.isDigit)
    (hfne : fs ≠ []) (hfs : ∀ c ∈ fs, c.isDigit) :
    parseSeconds (ds ++ '.' :: fs) =
      some ((natOfDigits ds : ℚ) + (natOfDigits fs : ℚ) / ((10 : ℚ) ^ fs.length), []) := by
  unfold parseSeconds
  rw [takeDigits_exact ds ('.' :: fs) hds (by intro c hc; simp at hc; subst hc; rfl)]
  have h2 := takeDigits_exact fs [] hfs (by intro c hc; simp at hc)
  rw [List.append_nil] at h2
  simp only [hne, h2]
  simp [hne, hfne]

/-- C8 (amended): every elapsed-time string of the form [H:]M:S[.ff]
(hours optional, minutes and seconds required, fractional seconds
optional) parses to H times 3600 plus M times 60 plus S, absent hours
contributing 0; a bare-seconds string S or S.ff (no colon) does not match
the pattern and yields none. -/
theorem c8_parse_elapsed_time (hh mm ss ff : List Char)
    (hhne : hh ≠ []) (hhd : ∀ c ∈ hh, c.isDigit)
    (hmne : mm ≠ []) (hmd : ∀ c ∈ mm, c.isDigit)
    (hsne : ss ≠ []) (hsd : ∀ c ∈ ss, c.isDigit)
    (hfne : ff ≠ []) (hfd : ∀ c ∈ ff, c.isDigit) :
    parse_elapsed_time (mm ++ ':' :: ss) =
      some (60 * (natOfDigits mm : ℚ) + (natOfDigits ss : ℚ)) ∧
    parse_elapsed_time (hh ++ ':' :: (mm ++ ':' :: ss)) =
      some (3600 * (natOfDigits hh : ℚ) + 60 * (natOfDigits mm : ℚ) + (natOfDigits ss : ℚ)) ∧
    parse_elapsed_time (mm ++ ':' :: (ss ++ '.' :: ff)) =
      some (60 * (natOfDigits mm : ℚ) +
        ((natOfDigits ss : ℚ) + (natOfDigits ff : ℚ) / ((10 : ℚ) ^ ff.length))) ∧
    parse_elapsed_time (hh ++ ':' :: (mm ++ ':' :: (ss ++ '.' :: ff))) =
      some (3600 * (natOfDigits hh : ℚ) + 60 * (natOfDigits mm : ℚ) +
        ((natOfDigits ss : ℚ) + (natOfDigits ff : ℚ) / ((10 : ℚ) ^ ff.length))) ∧
    parse_elapsed_time ss = none ∧
    parse_elapsed_time (ss ++ '.' :: ff) = none := by
  refine ⟨?_, ?_, ?_, ?_, ?_, ?_⟩
  · unfold parse_elapsed_time
    rw [parseNatColon_found mm ss hmne hmd]
    dsimp only
    rw [parseNatColon_plain_digits ss hsd]
    dsimp only
    rw [parseSeconds_plain ss hsne hsd]
  · unfold parse_elapsed_time
    rw [parseNatColon_found hh (mm ++ ':' :: ss) hhne hhd]
    dsimp only
    rw [parseNatColon_found mm ss hmne hmd]
    dsimp only
    rw [parseSeconds_plain ss hsne hsd]
  · unfold parse_elapsed_time
    rw [parseNatColon_found mm (ss ++ '.' :: ff) hmne hmd]
    dsimp only
    rw [parseNatColon_dot ss ff hsd]
    dsimp only
    rw [parseSeconds_frac ss ff hsne hsd hfne hfd]
  · unfold parse_elapsed_time
    rw [parseNatColon_found hh (mm ++ ':' :: (ss ++ '.' :: ff)) hhne hhd]
    dsimp only
    rw [parseNatColon_found mm (ss ++ '.' :: ff) hmne hmd]
    dsimp only
    rw [parseSeconds_frac ss ff hsne hsd hfne hfd]
  · unfold parse_elapsed_time
    rw [parseNatColon_plain_digits ss hsd]
  · unfold parse_elapsed_time
    rw [parseNatColon_dot ss ff hsd]

/-- C8 counterexample to the claim as stated: the bare-seconds string
5.25, which the claimed format [[H:]M:]S[.ff] accepts with value 5.25,
is rejected by parse_elapsed_time (the regex requires a minutes group
and colon), so the claim's minutes-optional reading is false. -/
theorem c8_counterexample :
    parse_elapsed_time (String.toList "5.25") = none ∧
    (none : Option ℚ) ≠ some (5 + 25 / 100) := by
  constructor
  · decide
  · intro hc
    cases hc

/-- C8 witness: the accepted forms and the rejected bare-seconds form
evaluated on concrete digit strings (1:2:3.5 and friends). -/
theorem c8_witness :
    parse_elapsed_time (['2'] ++ ':' :: ['3']) =
      some (60 * (natOfDigits ['2'] : ℚ) + (natOfDigits ['3'] : ℚ)) ∧
    parse_elapsed_time (['1'] ++ ':' :: (['2'] ++ ':' :: ['3'])) =
      some (3600 * (natOfDigits ['1'] : ℚ) + 60 * (natOfDigits ['2'] : ℚ) +
        (natOfDigits ['3'] : ℚ)) ∧
    parse_elapsed_time (['2'] ++ ':' :: (['3'] ++ '.' :: ['5'])) =
      some (60 * (natOfDigits ['2'] : ℚ) +
        ((natOfDigits ['3'] : ℚ) + (natOfDigits ['5'] : ℚ) / ((10 : ℚ) ^ (['5'] : List Char).length))) ∧
    parse_elapsed_time (['1'] ++ ':' :: (['2'] ++ ':' :: (['3'] ++ '.' :: ['5']))) =
      some (3600 * (natOfDigits ['1'] : ℚ) + 60 * (natOfDigits ['2'] : ℚ) +
        ((natOfDigits ['3'] : ℚ) + (natOfDigits ['5'] : ℚ) / ((10 : ℚ) ^ (['5'] : List Char).length))) ∧
    parse_elapsed_time ['3'] = none ∧
    parse_elapsed_time (['3'] ++ '.' :: ['5']) = none :=
  c8_parse_elapsed_time ['1'] ['2'] ['3'] ['5'] (by decide) (by decide) (by decide) (by decide)
    (by decide) (by decide) (by decide) (by decide)

theorem dinsert_ne (k2 k : String) (v : ℚ) (d : StatDict) (h : k2 ≠ k) :
    dinsert k v d k2 = d k2 := by
  unfold dinsert
  rw [if_neg h]

theorem timeLineUpdate_frame (keyPre : String) (d : StatDict) (l : List Char)
    (d2 : StatDict) (k : String) (h : timeLineUpdate keyPre d l = some d2)
    (hk : k ∉ timeKeys keyPre) : d2 k = d k := by
  simp only [timeKeys, List.mem_cons, List.not_mem_nil, or_false, not_or] at hk
  obtain ⟨h1, h2, h3, h4, h5⟩ := hk
  unfold timeLineUpdate at h
  by_cases c1 : containsSub ("User time".toList) l
  · rw [if_pos c1] at h
    rcases Option.map_eq_some'.mp h with ⟨v, _, hd2⟩
    rw [← hd2]
    exact dinsert_ne k _ v d h1
  · rw [if_neg c1] at h
    by_cases c2 : containsSub ("System time".toList) l
    · rw [if_pos c2] at h
      rcases Option.map_eq_some'.mp h with ⟨v, _, hd2⟩
      rw [← hd2]
      exact dinsert_ne k _ v d h2
    · rw [if_neg c2] at h
      by_cases c3 : containsSub ("Percent of CPU".toList) l
      · rw [if_pos c3] at h
        by_cases c3b : (lastToken l).getLast? = some '%'
        · rw [if_pos c3b] at h
          rcases Option.map_eq_some'.mp h with ⟨v, _, hd2⟩
          rw [← hd2]
          exact dinsert_ne k _ v d h3
        · rw [if_neg c3b] at h
          cases h
      · rw [if_neg c3] at h
        by_cases c4 : containsSub ("Elapsed (wall clock) time".toList) l
        · rw [if_pos c4] at h
          cases hp : parse_elapsed_time (lastToken l) with
          | some v =>
            rw [hp] at h
            injection h with h
            rw [← h]
            exact dinsert_ne k _ v d h4
          | none =>
            rw [hp] at h
            injection h with h
            rw [← h]
        · rw [if_neg c4] at h
          by_cases c5 : containsSub ("Maximum resident set size".toList) l
          · rw [if_pos c5] at h
            rcases Option.map_eq_some'.mp h with ⟨v, _, hd2⟩
            rw [← hd2]
            exact dinsert_ne k _ v d h5
          · rw [if_neg c5] at h
            injection h with h
            rw [← h]

theorem foldl_bind_none (lines : List (List Char)) (keyPre : String) :
    lines.foldl (fun acc l => acc.bind (fun d => timeLineUpdate keyPre d l))
      (none : Option StatDict) = none := by
  induction lines with
  | nil => rfl
  | cons l ls ih => simpa using ih

theorem time_file_foldl_frame (lines : List (List Char)) (keyPre : String) (k : String)
    (hk : k ∉ timeKeys keyPre) :
    ∀ (d0 d2 : StatDict),
      lines.foldl (fun acc l => acc.bind (fun d => timeLineUpdate keyPre d l)) (some d0) =
        some d2 → d2 k = d0 k := by
  induction lines with
  | nil =>
    intro d0 d2 h
    injection h with h
    rw [← h]
  | cons l ls ih =>
    intro d0 d2 h
    rw [List.foldl_cons] at h
    cases hu : timeLineUpdate keyPre d0 l with
    | none =>
      simp only [Option.some_bind] at h
      rw [hu, foldl_bind_none ls keyPre] at h
      cases h
    | some d1 =>
      simp only [Option.some_bind] at h
      rw [hu] at h
      rw [ih d1 d2 h, timeLineUpdate_frame keyPre d0 l d1 k hu hk]

/-- C10: when a target mapping is supplied, get_statistics_from_time_file
and get_classification_scores only add or overwrite their own recognized
statistic keys under the given key prefix: on every successful return,
each pre-existing entry under any other key is unchanged, so successive
contributors accumulate into one statistics mapping without clobbering
each other. -/
theorem c10_target_dict_frame (keyPre k : String) (lines : List (List Char))
    (target : StatDict) (predicted labels : List ℚ) :
    (∀ d2, get_statistics_from_time_file lines (some target) keyPre = some d2 →
      k ∉ timeKeys keyPre → d2 k = target k) ∧
    (∀ d2, get_classification_scores predicted labels (some target) keyPre = some d2 →
      k ∉ scoreKeys keyPre → d2 k = target k) := by
  constructor
  · intro d2 h hk
    unfold get_statistics_from_time_file at h
    exact time_file_foldl_frame lines keyPre k hk target d2 h
  · intro d2 h hk
    simp only [scoreKeys, List.mem_cons, List.not_mem_nil, or_false, not_or] at hk
    obtain ⟨k1, k2, k3, k4, k5, k6⟩ := hk
    unfold get_classification_scores at h
    by_cases hsum : countPairs predicted labels 1 1 + countPairs predicted labels 1 0 +
        countPairs predicted labels 0 0 + countPairs predicted labels 0 1 = labels.length
    · rw [if_pos hsum] at h
      injection h with h
      rw [← h]
      rw [dinsert_ne k _ _ _ k6, dinsert_ne k _ _ _ k5, dinsert_ne k _ _ _ k4,
        dinsert_ne k _ _ _ k3, dinsert_ne k _ _ _ k2, dinsert_ne k _ _ _ k1]
      rfl
    · rw [if_neg hsum] at h
      cases h

/-- C10 witness: a one-line resource report and a one-pair scoring call,
each given a target mapping holding an unrelated key, leave that entry
unchanged. -/
theorem c10_witness :
    (∃ d2, get_statistics_from_time_file [String.toList "User time (seconds): 1.5"]
        (some (fun s => if s = "extra" then some 42 else none)) "train-" = some d2 ∧
      d2 "extra" = (fun s => if s = "extra" then some (42 : ℚ) else none) "extra") ∧
    (∃ d2, get_classification_scores [1] [1]
        (some (fun s => if s = "extra" then some 42 else none)) "test-" = some d2 ∧
      d2 "extra" = (fun s => if s = "extra" then some (42 : ℚ) else none) "extra") := by
  constructor
  · refine ⟨_, rfl, ?_⟩
    exact (c10_target_dict_frame "train-" "extra" [String.toList "User time (seconds): 1.5"]
      (fun s => if s = "extra" then some 42 else none) [1] [1]).1 _ rfl (by decide)
  · refine ⟨_, rfl, ?_⟩
    exact (c10_target_dict_frame "test-" "extra" [String.toList "User time (seconds): 1.5"]
      (fun s => if s = "extra" then some 42 else none) [1] [1]).2 _ rfl (by decide)

end Balsa
